import Mathlib

/-!
Verification development for the review-intelligence application
(repository `vibe_coding`): a React UI (`frontend/src/App.jsx`) over a
review-analysis backend (text normalizer, LDA topic discovery with a
t-SNE layout, and an AI analysis orchestrator).  The backend pipeline is
not part of the visible repository, so its operations are modelled from
the specification; the UI handlers are shallow embeddings of the
functions in `App.jsx`.
-/

namespace VibeCoding

/-! ## Data model -/

/-- A stored review: identifier, rating (1-5), free text content,
submission date and the optional AI analysis text. -/
structure Review where
  id : Nat
  rating : Nat
  content : String
  reviewDate : String
  individualAnalysis : Option String
deriving DecidableEq, Repr

/-- A stored application record: package identifier, display name,
aggregate rating, counters and the optional overall analysis text. -/
structure AppRecord where
  appId : String
  appName : String
  rating : Option Nat
  reviewCount : Nat
  downloadCount : Nat
  overallAnalysis : Option String
deriving DecidableEq, Repr

/-- A discovered topic: integer id and its ordered top descriptive words. -/
structure Topic where
  topicId : Nat
  topWords : List String
deriving DecidableEq, Repr

/-- One document's assignment: review identifier, dominant topic id,
2-D projected coordinate, rating and a truncated content preview. -/
structure TopicAssignment where
  reviewId : Nat
  topicId : Nat
  x : Int
  y : Int
  rating : Nat
  preview : String
deriving DecidableEq, Repr

/-- The topic-discovery output: topics, per-document assignments and the
count of reviews included. -/
structure TopicReport where
  topics : List Topic
  assignments : List TopicAssignment
  nReviews : Nat
deriving DecidableEq, Repr

/-- Error taxonomy of the pipeline. -/
inductive PipelineError where
  | insufficientData (msg : String)
  | invalidParam
  | noReviews
  | analysisFailed
deriving DecidableEq, Repr

/-! ## Text Normalizer

Modelled from the spec: `normalize` splits the text into maximal
alphanumeric runs, keeps content tokens of length at least 2, lowercases
them, and on the rule-based path additionally discards a fixed stop-word
set.  The linguistic part-of-speech tagger is an external dependency
missing from the repository, so the tagger path is modelled by the same
deterministic tokenization followed by an arbitrary noun-classification
predicate.  Both paths are total Lean functions, hence deterministic and
non-raising by construction. -/

/-- Accumulates the current alphanumeric run (reversed) and emits a token
at every non-alphanumeric boundary. -/
def splitAux : List Char → List Char → List String
  | [], acc => if acc.isEmpty then [] else [String.mk acc.reverse]
  | c :: cs, acc =>
    if c.isAlphanum then splitAux cs (c :: acc)
    else if acc.isEmpty then splitAux cs acc
    else String.mk acc.reverse :: splitAux cs []

/-- Splits a string on non-alphanumeric boundaries into maximal
alphanumeric tokens. -/
def splitTokens (text : String) : List String :=
  splitAux text.data []

/-- Character-wise lowercasing. -/
def lowerStr (s : String) : String :=
  String.mk (s.data.map Char.toLower)

/-- The first `n` characters of a string. -/
def strTake (s : String) (n : Nat) : String :=
  String.mk (s.data.take n)

/-- Modelled from the spec: the fixed stop-word set of the rule-based
extractor. -/
def stopWords : List String :=
  ["the", "and", "for", "this", "that", "있는", "하는", "합니다"]

/-- Modelled from the spec: rule-based fallback normalization — split on
non-alphanumeric boundaries, lowercase, discard tokens shorter than 2
characters and stop words. -/
def ruleNormalize (text : String) : List String :=
  ((splitTokens text).map lowerStr).filter
    (fun t => 2 ≤ t.length && !stopWords.contains t)

/-- Modelled from the spec: tagger-based normalization — tokenize, keep
tokens the tagger classifies as nouns with length at least 2, lowercase. -/
def taggerNormalize (isNoun : String → Bool) (text : String) : List String :=
  (((splitTokens text).filter (fun t => isNoun t && 2 ≤ t.length)).map lowerStr)

/-- The tokenizer capability, selected once per process: tagger-based
when the linguistic dependency is available, rule-based otherwise. -/
inductive Tokenizer where
  | taggerBased (isNoun : String → Bool)
  | ruleBased

/-- Modelled from the spec: `normalize` dispatches on the selected
tokenizer capability. -/
def normalize (tok : Tokenizer) (text : String) : List String :=
  match tok with
  | .taggerBased isNoun => taggerNormalize isNoun text
  | .ruleBased => ruleNormalize text

/-! ## Topic Discovery Engine

Modelled from the spec: the backend fits a seeded LDA model over the
normalized corpus and projects the document-topic matrix with t-SNE.
The numeric fit of the missing backend is modelled by a deterministic
pseudo-random weight function of `(seed, corpus content)`: the spec
constrains only the shapes of the results and their determinism for a
fixed corpus, `k` and seed, not the LDA numerics. -/

/-- Deterministic linear-congruential pseudo-random step, standing in
for the seeded randomness of LDA and t-SNE. -/
def prand (x : Nat) : Nat :=
  (1103515245 * x + 12345) % 2147483648

/-- Deterministic hash of a term. -/
def strHash (s : String) : Nat :=
  s.data.foldl (fun h c => (h * 31 + c.toNat) % 1000003) 7

/-- Deterministic hash of a document's token list. -/
def tokensHash (ts : List String) : Nat :=
  ts.foldl (fun h t => (h * 131 + strHash t) % 1000003) 5381

/-- Modelled from the spec: weight of term `v` in topic `t` of the
fitted model. -/
def topicWordWeight (seed t : Nat) (v : String) : Nat :=
  prand (seed + 7919 * t + strHash v)

/-- Modelled from the spec: weight of topic `t` in the topic
distribution of a document with token hash `d`. -/
def docTopicWeight (seed d t : Nat) : Nat :=
  prand (seed + 31 * d + 524287 * t)

/-- Inserts an element into a list sorted by the boolean comparator. -/
def insertSorted (le : α → α → Bool) (x : α) : List α → List α
  | [] => [x]
  | y :: ys => if le x y then x :: y :: ys else y :: insertSorted le x ys

/-- Insertion sort by a boolean comparator. -/
def isort (le : α → α → Bool) (l : List α) : List α :=
  l.foldr (insertSorted le) []

/-- Lexicographic order on character lists (by code point). -/
def lexLe : List Char → List Char → Bool
  | [], _ => true
  | _ :: _, [] => false
  | a :: as, b :: bs =>
    if a.toNat < b.toNat then true
    else if b.toNat < a.toNat then false
    else lexLe as bs

/-- Modelled from the spec: comparator for top-word extraction —
descending weight, ties broken by lexical order of the term. -/
def wordBefore (w : String → Nat) (a b : String) : Bool :=
  w b < w a || (w a == w b && lexLe a.data b.data)

/-- Modelled from the spec: maximum vocabulary size bound. -/
def maxVocab : Nat := 1000

/-- Modelled from the spec: number of top descriptive words per topic. -/
def topWordCount : Nat := 10

/-- Modelled from the spec: the vocabulary is the deduplicated list of
terms occurring in the surviving documents (minimum document frequency
1), bounded by `maxVocab`. -/
def vocabOf (docs : List (List String)) : List String :=
  (docs.flatten.dedup).take maxVocab

/-- Dominant-topic selection: argmax of the topic weights over
`[0, k)`, ties broken by the lowest topic id. -/
def argmaxTopic (k : Nat) (f : Nat → Nat) : Nat :=
  (List.range k).foldl (fun best t => if f best < f t then t else best) 0

/-- Modelled from the spec: fixed truncation length of a preview. -/
def previewLen : Nat := 100

/-- Modelled from the spec: content preview, truncated with a trailing
ellipsis. -/
def mkPreview (s : String) : String :=
  if s.length ≤ previewLen then s else strTake s previewLen ++ "…"

/-- Deterministic hash of a row of the document-topic matrix. -/
def tokensHashNat (row : List Nat) : Nat :=
  row.foldl (fun h v => (h * 131 + v) % 1000003) 5381

/-- Modelled from the spec: the deterministic seeded 2-D coordinate of
one row of the document-topic matrix. -/
def coordOf (seed : Nat) (row : List Nat) : Int × Int :=
  (Int.ofNat (prand (seed + 2 * tokensHashNat row) % 100),
   Int.ofNat (prand (seed + 2 * tokensHashNat row + 1) % 100))

/-- Modelled from the spec: the t-SNE layout projector — one 2-D point
per row of the document-topic matrix, deterministic from the seed, and
an `InsufficientDataError` when there are at most `1` samples. -/
def project (seed : Nat) (m : List (List Nat)) :
    Except PipelineError (List (Int × Int)) :=
  if m.length ≤ 1 then
    .error (.insufficientData "corpus too small to project")
  else
    .ok (m.map (coordOf seed))

/-- The surviving documents: each review paired with its normalized
tokens, reviews yielding zero tokens dropped. -/
def usableDocs (tok : Tokenizer) (reviews : List Review) :
    List (Review × List String) :=
  (reviews.map (fun r => (r, normalize tok r.content))).filter
    (fun p => !p.2.isEmpty)

/-- Modelled from the spec: the topics of the fitted model — ids
`0..k-1`, each with the top-weighted vocabulary terms (descending
weight, ties lexical). -/
def fitTopics (seed k : Nat) (vocab : List String) : List Topic :=
  (List.range k).map (fun t =>
    { topicId := t
      topWords := (isort (wordBefore (topicWordWeight seed t)) vocab).take
        topWordCount })

/-- Modelled from the spec: the topic-distribution row of a document. -/
def docDist (seed k : Nat) (toks : List String) : List Nat :=
  (List.range k).map (fun t => docTopicWeight seed (tokensHash toks) t)

/-- Modelled from the spec: the assignment of one surviving document —
dominant topic (argmax, ties to the lowest id), coordinate, rating and
truncated preview. -/
def mkAssignment (seed k : Nat)
    (pc : (Review × List String) × (Int × Int)) : TopicAssignment :=
  { reviewId := pc.1.1.id
    topicId := argmaxTopic k (docTopicWeight seed (tokensHash pc.1.2))
    x := pc.2.1
    y := pc.2.2
    rating := pc.1.1.rating
    preview := mkPreview pc.1.1.content }

/-- Modelled from the spec: `discoverTopics` — normalize and drop empty
documents, check the usable count against `k`, fit the seeded topic
model, extract top words, assign each document to its dominant topic and
attach the projected coordinates. -/
def discoverTopics (tok : Tokenizer) (reviews : List Review)
    (k : Nat) (seed : Nat) : Except PipelineError TopicReport :=
  let docs := usableDocs tok reviews
  if docs.length < k then
    .error (.insufficientData "fewer usable reviews than topics")
  else if k = 0 then
    .error .invalidParam
  else
    match project seed (docs.map (fun p => docDist seed k p.2)) with
    | .error e => .error e
    | .ok coords =>
      .ok
        { topics := fitTopics seed k (vocabOf (docs.map (·.2)))
          assignments := (docs.zip coords).map (mkAssignment seed k)
          nReviews := docs.length }

/-- Whether a topic-discovery outcome is an `InsufficientDataError`. -/
def isInsufficient (e : Except PipelineError TopicReport) : Bool :=
  match e with
  | .error (.insufficientData _) => true
  | _ => false

/-! ## AI Analysis Orchestrator

Modelled from the spec: `analyze` issues one external call per review
(failures caught and the entry omitted from `perReview`) and exactly one
aggregate call whose failure fails the whole operation with
`AnalysisFailedError`.  The external generative service is modelled as a
function from prompt to a fallible response, fixed for the run. -/

/-- Failure modes of a single external call. -/
inductive CallError where
  | timeout
  | badStatus (code : Nat)
  | malformed
deriving DecidableEq, Repr

/-- Modelled from the spec: fixed character budget of the aggregate
prompt. -/
def aggBudget : Nat := 10000

/-- Modelled from the spec: the per-review prompt embeds rating and
content. -/
def mkReviewPrompt (r : Review) : String :=
  "rating " ++ toString r.rating ++ " review " ++ r.content

/-- Modelled from the spec: the aggregate prompt embeds the app metadata
and the concatenation of all review contents, truncated to the fixed
budget (dropped from the tail). -/
def mkAggregatePrompt (app : AppRecord) (reviews : List Review) : String :=
  "app " ++ app.appId ++ " " ++ app.appName ++ " reviews " ++
    strTake (reviews.foldl (fun a r => a ++ " " ++ r.content) "") aggBudget

instance : DecidableEq (Except CallError String) := fun a b =>
  match a, b with
  | .ok s, .ok t => if h : s = t then isTrue (by rw [h]) else
      isFalse (by intro hc; injection hc; contradiction)
  | .error e₁, .error e₂ => if h : e₁ = e₂ then isTrue (by rw [h]) else
      isFalse (by intro hc; injection hc; contradiction)
  | .ok _, .error _ => isFalse (by intro hc; injection hc)
  | .error _, .ok _ => isFalse (by intro hc; injection hc)

/-- Whether an external call succeeded. -/
def callOk (e : Except CallError String) : Bool :=
  match e with
  | .ok _ => true
  | .error _ => false

/-- Result of the orchestrator: the aggregate text and the per-review
mapping, keyed by review identifier. -/
structure AnalyzeResult where
  overallAnalysis : String
  perReview : List (Nat × String)
deriving DecidableEq, Repr

/-- Modelled from the spec: `analyze` — one caught call per review, one
aggregate call; an aggregate failure fails the operation with
`AnalysisFailedError` and no partial result. -/
def analyze (complete : String → Except CallError String)
    (app : AppRecord) (reviews : List Review) :
    Except PipelineError AnalyzeResult :=
  let per := reviews.filterMap (fun r =>
    match complete (mkReviewPrompt r) with
    | .ok s => some (r.id, s)
    | .error _ => none)
  match complete (mkAggregatePrompt app reviews) with
  | .error _ => .error .analysisFailed
  | .ok overall => .ok { overallAnalysis := overall, perReview := per }

/-! ## Pipeline state

The persisted state is the app record and its reviews; `analyze` writes
the analysis texts back, `discoverTopics` produces only the ephemeral
report. -/

/-- The persisted state touched by the pipeline. -/
structure PipelineState where
  app : AppRecord
  reviews : List Review
deriving DecidableEq, Repr

/-- Modelled from the spec: the write-back step of `analyze` — on
success every review that got a per-review result receives it in
`individualAnalysis` and the app receives `overallAnalysis`; on failure
nothing is written. -/
def analyzeState (complete : String → Except CallError String)
    (st : PipelineState) :
    PipelineState × Except PipelineError AnalyzeResult :=
  match analyze complete st.app st.reviews with
  | .error e => (st, .error e)
  | .ok res =>
    ({ app := { st.app with overallAnalysis := some res.overallAnalysis }
       reviews := st.reviews.map (fun r =>
         match res.perReview.lookup r.id with
         | some t => { r with individualAnalysis := some t }
         | none => r) },
     .ok res)

/-- Modelled from the spec: `discoverTopics` as a state transition — it
reads the reviews and returns a disjoint ephemeral report, mutating
nothing. -/
def discoverTopicsState (tok : Tokenizer) (st : PipelineState)
    (k : Nat) (seed : Nat) :
    PipelineState × Except PipelineError TopicReport :=
  (st, discoverTopics tok st.reviews k seed)

/-! ## UI layer (`frontend/src/App.jsx`)

Shallow embeddings of the handlers of the React component.  JavaScript
truthiness of a string value is explicit: a string is truthy exactly
when it is present and non-empty. -/

/-- JavaScript `String.prototype.trim`: strips leading and trailing
whitespace characters. -/
def jsTrim (s : String) : String :=
  String.mk (((s.data.dropWhile Char.isWhitespace).reverse.dropWhile
    Char.isWhitespace).reverse)

/-- JavaScript `a || b` on an optional string: the string when truthy,
otherwise the default. -/
def jsOr (o : Option String) (d : String) : String :=
  match o with
  | some s => if s = "" then d else s
  | none => d

/-- Truthiness of an optional string field. -/
def errTruthy (o : Option String) : Bool :=
  match o with
  | some s => s ≠ ""
  | none => false

/-- The observable effect of `handleCrawl` up to the request decision:
whether the HTTP request was issued, whether the loading state was
entered, and the error message set. -/
structure CrawlStep where
  requestSent : Bool
  loadingEntered : Bool
  errorMsg : String
deriving DecidableEq, Repr

/-- Embedding of `handleCrawl` (App.jsx lines 43-67) up to the request:
an input whose trim is empty sets the validation message and returns
before `setLoading(true)` and before the request; otherwise the loading
state is entered and the request issued. -/
def handleCrawl (appId : String) : CrawlStep :=
  if jsTrim appId = "" then
    { requestSent := false
      loadingEntered := false
      errorMsg := "앱 ID를 입력해주세요." }
  else
    { requestSent := true
      loadingEntered := true
      errorMsg := "" }

/-- The topic-modeling response body: the optional `error` field and the
report payload stored by the UI. -/
structure TopicPayload where
  errorField : Option String
  report : TopicReport
deriving DecidableEq, Repr

/-- Outcome of the topic-modeling POST as seen by the handler: a 2xx
response carrying a body, or a thrown error with an optional `detail`. -/
inductive HttpResult where
  | ok (payload : TopicPayload)
  | httpError (detail : Option String)
deriving DecidableEq, Repr

/-- The component state touched by `handleTopicModeling`. -/
structure UiState where
  error : String
  success : String
  topicData : Option TopicPayload
  topicModeling : Bool
deriving DecidableEq, Repr

/-- Success message of `handleTopicModeling`. -/
def topicSuccessMsg : String := "토픽 모델링이 완료되었습니다!"

/-- Default error message of the catch branch of `handleTopicModeling`. -/
def topicDefaultErr : String := "토픽 모델링 중 오류가 발생했습니다."

/-- Embedding of `handleTopicModeling` (App.jsx lines 92-114): reset the
messages and the topic data, then on a 2xx body branch on the truthiness
of `response.data.error`; on a thrown error set the catch message.  The
`topicModeling` flag is cleared in the `finally` block. -/
def handleTopicModeling (st : UiState) (appDataPresent : Bool)
    (resp : HttpResult) : UiState :=
  if !appDataPresent then st
  else
    let st1 : UiState :=
      { error := "", success := "", topicData := none, topicModeling := true }
    let st2 : UiState :=
      match resp with
      | .ok payload =>
        if errTruthy payload.errorField then
          { st1 with error := (payload.errorField).getD "" }
        else
          { st1 with topicData := some payload, success := topicSuccessMsg }
      | .httpError detail =>
        { st1 with error := jsOr detail topicDefaultErr }
    { st2 with topicModeling := false }

/-- Embedding of `renderStars` (App.jsx lines 131-138): `fullStars`
copies of the star character joined, where `fullStars` is the floor of
the rating and a non-positive loop bound yields no iterations. -/
def renderStars (rating : ℚ) : String :=
  String.join (List.replicate (Int.toNat ⌊rating⌋) "⭐")

/-! ## Basic lemmas -/

/-- A whitespace character is not alphanumeric. -/
theorem not_isAlphanum_of_isWhitespace (c : Char)
    (h : c.isWhitespace = true) : c.isAlphanum = false := by
  simp only [Char.isWhitespace, Bool.or_eq_true, decide_eq_true_eq] at h
  rcases h with ((h1 | h1) | h1) | h1 <;> (subst h1; decide)

/-- On a list of non-alphanumeric characters `splitAux` emits nothing. -/
theorem splitAux_all_not_alphanum (cs : List Char)
    (h : ∀ c ∈ cs, c.isAlphanum = false) :
    splitAux cs [] = [] := by
  induction cs with
  | nil => rfl
  | cons c cs ih =>
    have hc : c.isAlphanum = false := h c (List.mem_cons_self c cs)
    simp only [splitAux, hc, List.isEmpty_nil]
    exact ih (fun x hx => h x (List.mem_cons_of_mem c hx))

/-- On whitespace-only input `splitTokens` returns no tokens. -/
theorem splitTokens_whitespace (text : String)
    (h : text.data.all Char.isWhitespace = true) : splitTokens text = [] := by
  apply splitAux_all_not_alphanum
  intro c hc
  exact not_isAlphanum_of_isWhitespace c (List.all_eq_true.mp h c hc)

/-- Inserting preserves length up to one. -/
theorem length_insertSorted (le : α → α → Bool) (x : α) (l : List α) :
    (insertSorted le x l).length = l.length + 1 := by
  induction l with
  | nil => rfl
  | cons y ys ih =>
    simp only [insertSorted]
    split
    · simp
    · simp [ih]

/-- Insertion sort preserves length. -/
theorem length_isort (le : α → α → Bool) (l : List α) :
    (isort le l).length = l.length := by
  induction l with
  | nil => rfl
  | cons y ys ih =>
    simp only [isort, List.foldr_cons] at *
    rw [length_insertSorted, ih, List.length_cons]

/-- The dominant-topic index stays below the bound. -/
theorem argmaxTopic_lt (k : Nat) (f : Nat → Nat) (hk : 0 < k) :
    argmaxTopic k f < k := by
  have key : ∀ (l : List Nat) (b : Nat), b < k → (∀ t ∈ l, t < k) →
      (l.foldl (fun best t => if f best < f t then t else best) b) < k := by
    intro l
    induction l with
    | nil => intro b hb _; exact hb
    | cons t ts ih =>
      intro b hb hall
      simp only [List.foldl_cons]
      apply ih
      · split
        · exact hall t (List.mem_cons_self t ts)
        · exact hb
      · exact fun u hu => hall u (List.mem_cons_of_mem t hu)
  exact key (List.range k) 0 hk (fun t ht => List.mem_range.mp ht)

/-- The explicit report emitted on the success path of
`discoverTopics`. -/
def successReport (tok : Tokenizer) (reviews : List Review)
    (k seed : Nat) : TopicReport :=
  { topics := fitTopics seed k (vocabOf ((usableDocs tok reviews).map (·.2)))
    assignments :=
      ((usableDocs tok reviews).zip
        (((usableDocs tok reviews).map (fun p => docDist seed k p.2)).map
          (coordOf seed))).map (mkAssignment seed k)
    nReviews := (usableDocs tok reviews).length }

/-- With at least `k` usable reviews, a positive `k` and at least two
usable reviews, `discoverTopics` succeeds with the explicit report. -/
theorem discoverTopics_eq_ok (tok : Tokenizer) (reviews : List Review)
    (k seed : Nat) (hk : 0 < k)
    (hge : k ≤ (usableDocs tok reviews).length)
    (h2 : 2 ≤ (usableDocs tok reviews).length) :
    discoverTopics tok reviews k seed = .ok (successReport tok reviews k seed) := by
  have h1 : ¬ (usableDocs tok reviews).length < k := by omega
  have hk0 : ¬ k = 0 := by omega
  have hlen :
      ¬ ((usableDocs tok reviews).map (fun p => docDist seed k p.2)).length ≤ 1 := by
    rw [List.length_map]; omega
  simp only [discoverTopics, project, successReport, if_neg h1, if_neg hk0,
    if_neg hlen]

/-- Inversion: a successful `discoverTopics` call forces the size
conditions and the explicit report. -/
theorem discoverTopics_ok_inv (tok : Tokenizer) (reviews : List Review)
    (k seed : Nat) (rep : TopicReport)
    (h : discoverTopics tok reviews k seed = .ok rep) :
    0 < k ∧ k ≤ (usableDocs tok reviews).length ∧
      2 ≤ (usableDocs tok reviews).length ∧
      rep = successReport tok reviews k seed := by
  by_cases h1 : (usableDocs tok reviews).length < k
  · simp [discoverTopics, h1] at h
  by_cases hk0 : k = 0
  · simp [discoverTopics, h1, hk0] at h
  by_cases hlen :
      ((usableDocs tok reviews).map (fun p => docDist seed k p.2)).length ≤ 1
  · rw [List.length_map] at hlen
    simp [discoverTopics, project, h1, hk0, hlen] at h
  · rw [List.length_map] at hlen
    have hk : 0 < k := Nat.pos_of_ne_zero hk0
    have hge : k ≤ (usableDocs tok reviews).length := by omega
    have h2 : 2 ≤ (usableDocs tok reviews).length := by omega
    rw [discoverTopics_eq_ok tok reviews k seed hk hge h2] at h
    injection h with h
    exact ⟨hk, hge, h2, h.symm⟩

/-- Every surviving document has at least one token, so the vocabulary
of a non-empty surviving corpus is non-empty. -/
theorem vocabOf_usableDocs_ne_nil (tok : Tokenizer) (reviews : List Review)
    (hd : 0 < (usableDocs tok reviews).length) :
    vocabOf ((usableDocs tok reviews).map (·.2)) ≠ [] := by
  intro hnil
  unfold vocabOf at hnil
  rcases List.take_eq_nil_iff.mp hnil with hv | hv
  · exact absurd hv (by decide)
  · rw [List.dedup_eq_nil] at hv
    obtain ⟨p, hp⟩ := List.exists_mem_of_length_pos hd
    have hpe : (!p.2.isEmpty) = true := by
      have hp2 : p ∈ (reviews.map
          (fun r => (r, normalize tok r.content))).filter
            (fun q => !q.2.isEmpty) := hp
      exact (List.mem_filter.mp hp2).2
    have : p.2 = [] := by
      have hmem : p.2 ∈ (usableDocs tok reviews).map (·.2) :=
        List.mem_map_of_mem _ hp
      exact (List.flatten_eq_nil_iff.mp hv) p.2 hmem
    simp [this] at hpe

/-- C1 (amended): with a positive `k`, at least `k` usable reviews and
at least two usable reviews (the projector's lower bound),
`discoverTopics` succeeds and returns exactly `k` topics, each with a
non-empty word list. -/
theorem discoverTopics_success_shape (tok : Tokenizer) (reviews : List Review)
    (k seed : Nat) (hk : 0 < k)
    (hge : k ≤ (usableDocs tok reviews).length)
    (h2 : 2 ≤ (usableDocs tok reviews).length) :
    ∃ rep : TopicReport, discoverTopics tok reviews k seed = .ok rep ∧
      rep.topics.length = k ∧ ∀ t ∈ rep.topics, t.topWords ≠ [] := by
  refine ⟨successReport tok reviews k seed,
    discoverTopics_eq_ok tok reviews k seed hk hge h2, ?_, ?_⟩
  · simp [successReport, fitTopics]
  · intro t ht
    simp only [successReport, fitTopics, List.mem_map] at ht
    obtain ⟨i, _, hi⟩ := ht
    subst hi
    simp only []
    intro hnil
    rcases List.take_eq_nil_iff.mp hnil with hv | hv
    · exact absurd hv (by decide)
    · have hvlen := length_isort
        (wordBefore (topicWordWeight seed i))
        (vocabOf ((usableDocs tok reviews).map (·.2)))
      rw [hv] at hvlen
      have hne := vocabOf_usableDocs_ne_nil tok reviews (by omega)
      simp only [List.length_nil] at hvlen
      exact hne (List.length_eq_zero.mp hvlen.symm)

/-- Concrete review whose content yields exactly one token. -/
def soloReview : Review :=
  { id := 7, rating := 5, content := "battery", reviewDate := "2024-01-01",
    individualAnalysis := none }

/-- C1 counterexample: a corpus with one usable review and `k = 1` has
at least `k` usable reviews, yet `discoverTopics` fails with the
projector's single-point `InsufficientDataError` instead of returning a
report. -/
theorem discoverTopics_single_point_boundary :
    (usableDocs .ruleBased [soloReview]).length = 1 ∧
    discoverTopics .ruleBased [soloReview] 1 0 =
      .error (.insufficientData "corpus too small to project") :=
  ⟨rfl, rfl⟩

/-- Two concrete reviews, each yielding tokens. -/
def pairReviews : List Review :=
  [{ id := 1, rating := 5, content := "battery drain", reviewDate := "2024-01-01",
     individualAnalysis := none },
   { id := 2, rating := 1, content := "screen crash", reviewDate := "2024-01-02",
     individualAnalysis := none }]

/-- Witness for the amended C1 at a concrete corpus. -/
theorem discoverTopics_success_shape_witness :
    0 < 2 ∧ 2 ≤ (usableDocs .ruleBased pairReviews).length ∧
    (∃ rep : TopicReport, discoverTopics .ruleBased pairReviews 2 0 = .ok rep ∧
      rep.topics.length = 2 ∧ ∀ t ∈ rep.topics, t.topWords ≠ []) :=
  ⟨by decide, by decide,
    discoverTopics_success_shape .ruleBased pairReviews 2 0 (by decide)
      (by decide) (by decide)⟩

/-- C2 (amended): for a positive `k`, `discoverTopics` fails with an
`InsufficientDataError` exactly when the usable-review count is below
`k` or at most one document survives (the projector's single-point
boundary); in particular a corpus with exactly `k - 1` usable reviews
fails so. -/
theorem discoverTopics_insufficient_iff (tok : Tokenizer)
    (reviews : List Review) (k seed : Nat) (hk : 0 < k) :
    isInsufficient (discoverTopics tok reviews k seed) = true ↔
      ((usableDocs tok reviews).length < k ∨
        (usableDocs tok reviews).length ≤ 1) := by
  by_cases h1 : (usableDocs tok reviews).length < k
  · simp [discoverTopics, h1, isInsufficient]
  · have hk0 : ¬ k = 0 := by omega
    by_cases hlen : (usableDocs tok reviews).length ≤ 1
    · simp only [discoverTopics, project, isInsufficient, if_neg h1,
        if_neg hk0, List.length_map, if_pos hlen]
      simp [hlen]
    · rw [discoverTopics_eq_ok tok reviews k seed hk (by omega) (by omega)]
      simp only [isInsufficient]
      simp [h1, hlen]

/-- Concrete review whose content yields exactly one token. -/
def cameraReview : Review :=
  { id := 9, rating := 4, content := "camera", reviewDate := "2024-02-02",
    individualAnalysis := none }

/-- C2 counterexample: with `k = 1` and exactly one usable review, the
usable count is not below `k`, yet `discoverTopics` fails with an
`InsufficientDataError`, so the claimed "exactly when" equivalence is
false. -/
theorem discoverTopics_insufficient_not_lt :
    ¬ ((usableDocs .ruleBased [cameraReview]).length < 1) ∧
    isInsufficient (discoverTopics .ruleBased [cameraReview] 1 0) = true :=
  ⟨by decide, rfl⟩

/-- Witness for the amended C2 at a concrete corpus with `k = 2` and a
single usable review. -/
theorem discoverTopics_insufficient_iff_witness :
    0 < 2 ∧
    (isInsufficient (discoverTopics .ruleBased [cameraReview] 2 0) = true ↔
      ((usableDocs .ruleBased [cameraReview]).length < 2 ∨
        (usableDocs .ruleBased [cameraReview]).length ≤ 1)) :=
  ⟨by decide,
    discoverTopics_insufficient_iff .ruleBased [cameraReview] 2 0 (by decide)⟩

/-- Projection of an assignment list to its review identifiers. -/
theorem assignments_map_reviewId (docs : List (Review × List String))
    (coords : List (Int × Int)) (seed k : Nat)
    (hlen : docs.length ≤ coords.length) :
    ((docs.zip coords).map (mkAssignment seed k)).map (fun a => a.reviewId) =
      docs.map (fun p => p.1.id) := by
  rw [List.map_map]
  have h1 : ((fun a => a.reviewId) ∘ mkAssignment seed k) =
      ((fun p : Review × List String => p.1.id) ∘ Prod.fst) := rfl
  rw [h1, ← List.map_map, List.map_fst_zip docs coords hlen]

/-- C3: on every successful `discoverTopics` call whose usable reviews
carry distinct identifiers, each usable review appears exactly once in
the assignments (counted by review id) and every assignment's topic id
lies in `[0, k)`. -/
theorem discoverTopics_assignments_inv (tok : Tokenizer)
    (reviews : List Review) (k seed : Nat) (rep : TopicReport)
    (h : discoverTopics tok reviews k seed = .ok rep)
    (hnd : ((usableDocs tok reviews).map (fun p => p.1.id)).Nodup) :
    (∀ p ∈ usableDocs tok reviews,
        (rep.assignments.map (fun a => a.reviewId)).count p.1.id = 1) ∧
    (∀ a ∈ rep.assignments, a.topicId < k) := by
  obtain ⟨hk, hge, h2, hrep⟩ := discoverTopics_ok_inv tok reviews k seed rep h
  subst hrep
  have hmap : ((successReport tok reviews k seed).assignments).map
      (fun a => a.reviewId) = (usableDocs tok reviews).map (fun p => p.1.id) := by
    simp only [successReport]
    exact assignments_map_reviewId _ _ seed k (by rw [List.length_map,
      List.length_map])
  constructor
  · intro p hp
    rw [hmap]
    exact List.count_eq_one_of_mem hnd (List.mem_map_of_mem _ hp)
  · intro a ha
    simp only [successReport, List.mem_map] at ha
    obtain ⟨pc, _, hpc⟩ := ha
    subst hpc
    exact argmaxTopic_lt k _ hk

/-- Witness for C3 at a concrete two-review corpus. -/
theorem discoverTopics_assignments_inv_witness :
    ((usableDocs .ruleBased pairReviews).map (fun p => p.1.id)).Nodup ∧
    ((∀ p ∈ usableDocs .ruleBased pairReviews,
        (((successReport .ruleBased pairReviews 1 0).assignments).map
          (fun a => a.reviewId)).count p.1.id = 1) ∧
     (∀ a ∈ (successReport .ruleBased pairReviews 1 0).assignments,
        a.topicId < 1)) :=
  ⟨by decide,
    discoverTopics_assignments_inv .ruleBased pairReviews 1 0
      (successReport .ruleBased pairReviews 1 0)
      (discoverTopics_eq_ok .ruleBased pairReviews 1 0 (by decide) (by decide)
        (by decide))
      (by decide)⟩

/-- C4: `discoverTopics` is deterministic — two calls on the unchanged
corpus with the same `k` and the same seed yield identical topic word
lists and identical topic assignments (coordinates included, hence equal
within any tolerance). -/
theorem discoverTopics_deterministic (tok : Tokenizer)
    (reviews : List Review) (k seed : Nat) (rep₁ rep₂ : TopicReport)
    (h₁ : discoverTopics tok reviews k seed = .ok rep₁)
    (h₂ : discoverTopics tok reviews k seed = .ok rep₂) :
    rep₁.topics = rep₂.topics ∧ rep₁.assignments = rep₂.assignments := by
  rw [h₁] at h₂
  injection h₂ with h₂
  subst h₂
  exact ⟨rfl, rfl⟩

/-- Witness for C4 at a concrete corpus: both calls return the success
report. -/
theorem discoverTopics_deterministic_witness :
    (successReport .ruleBased pairReviews 2 1).topics =
      (successReport .ruleBased pairReviews 2 1).topics ∧
    (successReport .ruleBased pairReviews 2 1).assignments =
      (successReport .ruleBased pairReviews 2 1).assignments :=
  discoverTopics_deterministic .ruleBased pairReviews 2 1
    (successReport .ruleBased pairReviews 2 1)
    (successReport .ruleBased pairReviews 2 1)
    (discoverTopics_eq_ok .ruleBased pairReviews 2 1 (by decide) (by decide)
      (by decide))
    (discoverTopics_eq_ok .ruleBased pairReviews 2 1 (by decide) (by decide)
      (by decide))

/-- The per-review mapping has one entry per successful call. -/
theorem perReview_length_eq_countP
    (complete : String → Except CallError String) (reviews : List Review) :
    (reviews.filterMap (fun r =>
      match complete (mkReviewPrompt r) with
      | .ok s => some (r.id, s)
      | .error _ => none)).length =
      reviews.countP (fun r => callOk (complete (mkReviewPrompt r))) := by
  induction reviews with
  | nil => rfl
  | cons r rs ih =>
    simp only [List.filterMap_cons, List.countP_cons]
    cases hc : complete (mkReviewPrompt r) with
    | ok s => simp [callOk, hc, ih]
    | error e => simp [callOk, hc, ih]

/-- C5: a failing per-review call only omits that review's entry — with
a successful aggregate call, `analyze` returns the aggregate text and
exactly `n - m` per-review entries when `m` of the `n` per-review calls
fail, and every review whose call succeeded is present; a failing
aggregate call instead fails the whole operation with
`AnalysisFailedError`. -/
theorem analyze_partial_failure
    (complete : String → Except CallError String)
    (app : AppRecord) (reviews : List Review) :
    (∀ e, complete (mkAggregatePrompt app reviews) = .error e →
        analyze complete app reviews = .error .analysisFailed) ∧
    (∀ s, complete (mkAggregatePrompt app reviews) = .ok s →
        ∃ res, analyze complete app reviews = .ok res ∧
          res.overallAnalysis = s ∧
          res.perReview.length =
            reviews.length -
              (reviews.filter
                (fun r => !callOk (complete (mkReviewPrompt r)))).length ∧
          ∀ r ∈ reviews, callOk (complete (mkReviewPrompt r)) = true →
            r.id ∈ res.perReview.map Prod.fst) := by
  constructor
  · intro e he
    simp [analyze, he]
  · intro s hs
    refine ⟨{ overallAnalysis := s,
              perReview := reviews.filterMap (fun r =>
                match complete (mkReviewPrompt r) with
                | .ok t => some (r.id, t)
                | .error _ => none) },
      by simp [analyze, hs], rfl, ?_, ?_⟩
    · simp only []
      rw [perReview_length_eq_countP, ← List.countP_eq_length_filter]
      have hsplit := List.length_eq_countP_add_countP
        (fun r => callOk (complete (mkReviewPrompt r))) reviews
      simp only [Bool.not_eq_true, decide_not, Bool.decide_eq_true] at hsplit ⊢
      have hcong : (fun a : Review =>
          decide (callOk (complete (mkReviewPrompt a)) = false)) =
          (fun r : Review => !callOk (complete (mkReviewPrompt r))) := by
        funext a
        cases callOk (complete (mkReviewPrompt a)) <;> rfl
      rw [hcong] at hsplit
      omega
    · intro r hr hok
      simp only [List.mem_map]
      have hex : ∃ t, complete (mkReviewPrompt r) = .ok t := by
        cases hc : complete (mkReviewPrompt r) with
        | ok t => exact ⟨t, rfl⟩
        | error e => rw [hc] at hok; simp [callOk] at hok
      obtain ⟨t, ht⟩ := hex
      refine ⟨(r.id, t), ?_, rfl⟩
      exact List.mem_filterMap.mpr ⟨r, hr, by rw [ht]⟩

/-- Ten concrete reviews with pairwise distinct contents. -/
def tenReviews : List Review :=
  [{ id := 1, rating := 5, content := "great app", reviewDate := "d",
     individualAnalysis := none },
   { id := 2, rating := 1, content := "crashes constantly", reviewDate := "d",
     individualAnalysis := none },
   { id := 3, rating := 4, content := "good but slow", reviewDate := "d",
     individualAnalysis := none },
   { id := 4, rating := 2, content := "too many ads", reviewDate := "d",
     individualAnalysis := none },
   { id := 5, rating := 5, content := "love the features", reviewDate := "d",
     individualAnalysis := none },
   { id := 6, rating := 3, content := "battery drain", reviewDate := "d",
     individualAnalysis := none },
   { id := 7, rating := 4, content := "clean design", reviewDate := "d",
     individualAnalysis := none },
   { id := 8, rating := 2, content := "login broken", reviewDate := "d",
     individualAnalysis := none },
   { id := 9, rating := 5, content := "works well", reviewDate := "d",
     individualAnalysis := none },
   { id := 10, rating := 1, content := "slow sync", reviewDate := "d",
     individualAnalysis := none }]

/-- A concrete app record. -/
def demoApp : AppRecord :=
  { appId := "com.example.app", appName := "Example", rating := some 4,
    reviewCount := 10, downloadCount := 1000, overallAnalysis := none }

/-- The third concrete review. -/
def slowReview : Review :=
  { id := 3, rating := 4, content := "good but slow", reviewDate := "d",
    individualAnalysis := none }

/-- The seventh concrete review. -/
def designReview : Review :=
  { id := 7, rating := 4, content := "clean design", reviewDate := "d",
    individualAnalysis := none }

/-- A concrete external service for the run: the calls for reviews 3 and
7 fail, every other call succeeds. -/
def flakyService (p : String) : Except CallError String :=
  if p = mkReviewPrompt slowReview then .error .timeout
  else if p = mkReviewPrompt designReview then .error .malformed
  else .ok "analysis text"

/-- Witness for C5: with 2 of 10 per-review calls failing, `analyze`
returns the aggregate text and exactly 8 per-review entries. -/
theorem analyze_partial_failure_witness :
    flakyService (mkAggregatePrompt demoApp tenReviews) =
      .ok "analysis text" ∧
    ∃ res, analyze flakyService demoApp tenReviews = .ok res ∧
      res.overallAnalysis = "analysis text" ∧ res.perReview.length = 8 := by
  have hagg : flakyService (mkAggregatePrompt demoApp tenReviews) =
      .ok "analysis text" := by decide
  obtain ⟨res, h1, h2, h3, _⟩ :=
    (analyze_partial_failure flakyService demoApp tenReviews).2
      "analysis text" hagg
  exact ⟨hagg, res, h1, h2, by rw [h3]; decide⟩

/-- C6: `normalize` is deterministic on both tokenizer paths (its result
is a function of the selected path and the input text alone), and on
every empty or whitespace-only input it returns the empty token
sequence; it is a total function, so it never raises. -/
theorem normalize_deterministic_empty (tok : Tokenizer) (text : String) :
    (∀ text₂ : String, text = text₂ → normalize tok text = normalize tok text₂) ∧
    (text.data.all Char.isWhitespace = true → normalize tok text = []) := by
  refine ⟨fun t₂ ht => by rw [ht], fun h => ?_⟩
  cases tok with
  | taggerBased isNoun =>
    simp [normalize, taggerNormalize, splitTokens_whitespace text h]
  | ruleBased =>
    simp [normalize, ruleNormalize, splitTokens_whitespace text h]

/-- Witness for C6: the empty string and a whitespace-only string
normalize to the empty sequence on both paths. -/
theorem normalize_deterministic_empty_witness :
    ("".data.all Char.isWhitespace = true ∧ normalize .ruleBased "" = []) ∧
    (" \t ".data.all Char.isWhitespace = true ∧
      normalize (.taggerBased (fun _ => true)) " \t " = []) :=
  ⟨⟨by decide, (normalize_deterministic_empty .ruleBased "").2 (by decide)⟩,
   ⟨by decide,
     (normalize_deterministic_empty (.taggerBased (fun _ => true)) " \t ").2
       (by decide)⟩⟩

/-- C7: neither operation mutates the Review or AppRecord identity,
rating or date fields, and the only mutations are the analysis text
fields — after `analyze`, the app record agrees with the input on every
field except `overallAnalysis` (identifier, name, rating, review count,
download count unchanged), and every review agrees with its input on
every field except `individualAnalysis` (identifier, rating, content,
submission date unchanged, shown by erasing the analysis field on both
sides); `discoverTopics` leaves the whole state untouched, returning
only a disjoint ephemeral report. -/
theorem pipeline_frame (complete : String → Except CallError String)
    (tok : Tokenizer) (st : PipelineState) (k seed : Nat) :
    ((analyzeState complete st).1.app.appId = st.app.appId ∧
      (analyzeState complete st).1.app.appName = st.app.appName ∧
      (analyzeState complete st).1.app.rating = st.app.rating ∧
      (analyzeState complete st).1.app.reviewCount = st.app.reviewCount ∧
      (analyzeState complete st).1.app.downloadCount = st.app.downloadCount) ∧
    ((analyzeState complete st).1.reviews.map
        (fun r => { r with individualAnalysis := none }) =
      st.reviews.map (fun r => { r with individualAnalysis := none })) ∧
    (discoverTopicsState tok st k seed).1 = st := by
  refine ⟨?_, ?_, rfl⟩ <;> unfold analyzeState <;> split
  · exact ⟨rfl, rfl, rfl, rfl, rfl⟩
  · exact ⟨rfl, rfl, rfl, rfl, rfl⟩
  · rfl
  · simp only [List.map_map]
    apply List.map_congr_left
    intro r _
    simp only [Function.comp_apply]
    split <;> rfl

/-- The initial UI state. -/
def uiInit : UiState :=
  { error := "", success := "", topicData := none, topicModeling := false }

/-- An empty report payload. -/
def emptyReport : TopicReport :=
  { topics := [], assignments := [], nReviews := 0 }

/-- A body that contains an `error` field holding the empty string. -/
def emptyErrorPayload : TopicPayload :=
  { errorField := some "", report := emptyReport }

/-- C8 counterexample: a body containing an `error` field whose value is
the empty string is falsy in JavaScript, so `handleTopicModeling` stores
the payload as topic data and shows the success message instead of
displaying the error — the claim's branching on mere field presence is
false. -/
theorem handleTopicModeling_empty_error_field :
    (handleTopicModeling uiInit true (.ok emptyErrorPayload)).topicData =
      some emptyErrorPayload ∧
    (handleTopicModeling uiInit true (.ok emptyErrorPayload)).success =
      topicSuccessMsg ∧
    (handleTopicModeling uiInit true (.ok emptyErrorPayload)).error = "" :=
  ⟨rfl, rfl, rfl⟩

/-- C8 (amended): when the body's `error` field is present and
non-empty (truthy), `handleTopicModeling` displays that message, leaves
the topic data unset and shows no success message; otherwise (field
absent, or present but empty) it stores the payload and shows success.
Both outcomes are values of the total handler's 2xx branch, so the soft
error never surfaces as a thrown failure. -/
theorem handleTopicModeling_soft_error (st : UiState)
    (payload : TopicPayload) :
    (errTruthy payload.errorField = true →
      (handleTopicModeling st true (.ok payload)).error =
        (payload.errorField).getD "" ∧
      (handleTopicModeling st true (.ok payload)).topicData = none ∧
      (handleTopicModeling st true (.ok payload)).success = "") ∧
    (errTruthy payload.errorField = false →
      (handleTopicModeling st true (.ok payload)).topicData = some payload ∧
      (handleTopicModeling st true (.ok payload)).success = topicSuccessMsg ∧
      (handleTopicModeling st true (.ok payload)).error = "") := by
  constructor <;> intro h <;> simp [handleTopicModeling, h]

/-- A body carrying a non-empty soft error message. -/
def softErrorPayload : TopicPayload :=
  { errorField := some "데이터가 부족합니다", report := emptyReport }

/-- Witness for the amended C8 at a truthy and at an absent error
field. -/
theorem handleTopicModeling_soft_error_witness :
    (errTruthy softErrorPayload.errorField = true ∧
      (handleTopicModeling uiInit true (.ok softErrorPayload)).error =
        (softErrorPayload.errorField).getD "" ∧
      (handleTopicModeling uiInit true (.ok softErrorPayload)).topicData =
        none ∧
      (handleTopicModeling uiInit true (.ok softErrorPayload)).success = "") ∧
    (errTruthy (TopicPayload.errorField
        { errorField := none, report := emptyReport }) = false ∧
      (handleTopicModeling uiInit true
        (.ok { errorField := none, report := emptyReport })).topicData =
          some { errorField := none, report := emptyReport }) :=
  ⟨⟨by decide, (handleTopicModeling_soft_error uiInit softErrorPayload).1
      (by decide)⟩,
   ⟨by decide, ((handleTopicModeling_soft_error uiInit
      { errorField := none, report := emptyReport }).2 (by decide)).1⟩⟩

/-- Length of a fold of appends. -/
theorem length_foldl_append (l : List String) (a : String) :
    (l.foldl (· ++ ·) a).length = a.length + (l.map String.length).sum := by
  induction l generalizing a with
  | nil => simp
  | cons s ss ih =>
    simp only [List.foldl_cons, List.map_cons, List.sum_cons, ih,
      String.length_append]
    omega

/-- Length of a join of replicated strings. -/
theorem length_join_replicate (n : Nat) (s : String) :
    (String.join (List.replicate n s)).length = n * s.length := by
  unfold String.join
  rw [length_foldl_append]
  simp [List.map_replicate, List.sum_replicate, smul_eq_mul]

/-- C9: `renderStars` renders exactly `⌊r⌋` star characters when
`⌊r⌋ ≥ 1`, renders the empty string for every rating below 1 (zero and
negative ratings included), and its output depends only on `⌊r⌋`, so the
fractional part is never rendered; the embedding is a total function, so
it never raises. -/
theorem renderStars_spec (r : ℚ) :
    (1 ≤ ⌊r⌋ → ((renderStars r).length : ℤ) = ⌊r⌋) ∧
    (r < 1 → renderStars r = "") ∧
    (∀ r₂ : ℚ, ⌊r⌋ = ⌊r₂⌋ → renderStars r = renderStars r₂) := by
  refine ⟨fun h => ?_, fun h => ?_, fun r₂ h => by unfold renderStars; rw [h]⟩
  · unfold renderStars
    rw [length_join_replicate]
    have hs : ("⭐" : String).length = 1 := rfl
    rw [hs, Nat.mul_one]
    exact_mod_cast Int.toNat_of_nonneg (by omega)
  · have hlt : ⌊r⌋ < 1 := by
      rw [Int.floor_lt]
      exact_mod_cast h
    unfold renderStars
    have : (⌊r⌋).toNat = 0 := by omega
    rw [this]
    rfl

/-- Witness for C9 at ratings 5/2, 0 and -2. -/
theorem renderStars_spec_witness :
    ((1 : ℤ) ≤ ⌊(5 / 2 : ℚ)⌋ ∧
      ((renderStars (5 / 2)).length : ℤ) = ⌊(5 / 2 : ℚ)⌋) ∧
    ((0 : ℚ) < 1 ∧ renderStars 0 = "") ∧
    ((-2 : ℚ) < 1 ∧ renderStars (-2) = "") :=
  ⟨⟨by norm_num, (renderStars_spec (5 / 2)).1 (by norm_num)⟩,
   ⟨by norm_num, (renderStars_spec 0).2.1 (by norm_num)⟩,
   ⟨by norm_num, (renderStars_spec (-2)).2.1 (by norm_num)⟩⟩

/-- The observable effect of the validation branch of `handleCrawl`. -/
def crawlRejected : CrawlStep :=
  { requestSent := false
    loadingEntered := false
    errorMsg := "앱 ID를 입력해주세요." }

/-- The trim of a string is empty exactly when the string is all
whitespace. -/
theorem jsTrim_eq_empty_iff (s : String) :
    jsTrim s = "" ↔ s.data.all Char.isWhitespace = true := by
  unfold jsTrim
  constructor
  · intro h
    have hl : ((s.data.dropWhile Char.isWhitespace).reverse.dropWhile
        Char.isWhitespace).reverse = [] := by
      have := congrArg String.data h
      simpa using this
    rw [List.reverse_eq_nil_iff, List.dropWhile_eq_nil_iff] at hl
    rw [List.all_eq_true]
    intro c hc
    rcases List.mem_append.mp
        ((List.takeWhile_append_dropWhile Char.isWhitespace s.data) ▸ hc) with
      hmem | hmem
    · exact List.mem_takeWhile_imp hmem
    · exact hl c (List.mem_reverse.mpr hmem)
  · intro h
    have h1 : s.data.dropWhile Char.isWhitespace = [] :=
      List.dropWhile_eq_nil_iff.mpr
        (fun c hc => List.all_eq_true.mp h c hc)
    rw [h1]
    rfl

/-- C10: on an empty or whitespace-only app-id input, `handleCrawl` sets
the validation message and returns without issuing the HTTP request and
without entering the loading state; the crawl request is issued exactly
when the input has at least one non-whitespace character. -/
theorem handleCrawl_validation (s : String) :
    (s.data.all Char.isWhitespace = true →
      handleCrawl s = crawlRejected) ∧
    ((handleCrawl s).requestSent = true ↔
      ∃ c ∈ s.data, ¬ c.isWhitespace = true) := by
  constructor
  · intro h
    unfold handleCrawl
    rw [if_pos ((jsTrim_eq_empty_iff s).mpr h)]
    rfl
  · unfold handleCrawl
    by_cases h : jsTrim s = ""
    · rw [if_pos h]
      simp only [Bool.false_eq_true, false_iff, not_exists]
      intro c hc
      exact hc.2 (List.all_eq_true.mp ((jsTrim_eq_empty_iff s).mp h) c hc.1)
    · rw [if_neg h]
      simp only [true_iff]
      by_contra hno
      push_neg at hno
      exact h ((jsTrim_eq_empty_iff s).mpr (List.all_eq_true.mpr hno))

/-- Witness for C10 at a whitespace-only input and at a real app id. -/
theorem handleCrawl_validation_witness :
    (" \t".data.all Char.isWhitespace = true ∧
      handleCrawl " \t" = crawlRejected) ∧
    (handleCrawl "com.kakao.talk").requestSent = true :=
  ⟨⟨by decide, (handleCrawl_validation " \t").1 (by decide)⟩, by decide⟩

end VibeCoding
